import Mathlib

/-!
Verification of the astrological calculation engine
(`src/engine/astrology.js`): a shallow embedding in Lean 4 of the
Julian-day conversion, local-sidereal-time and house computation,
aspect classification, and the synastry (compatibility) scoring
pipeline, together with proofs of the specified properties.

Numbers: the JavaScript source computes with IEEE doubles; the
embedding uses exact rationals (`ℚ`), so every constant and every
arithmetic step is represented exactly.
-/

/-- Truncation toward zero of a rational, as JavaScript produces for
the implicit integer quotient of the `%` operator. -/
def ratTrunc (q : ℚ) : ℤ :=
  if 0 ≤ q then ⌊q⌋ else ⌈q⌉

/-- The JavaScript remainder operator `a % m` (sign follows the
dividend): `a - m * trunc (a / m)`. -/
def jsRem (a m : ℚ) : ℚ :=
  a - m * (ratTrunc (a / m) : ℚ)

/-- Rounding to two decimal places, the numeric content of
JavaScript's `toFixed(2)` (which the source applies to the orb before
returning it, formatting it as a string for display). -/
def toFixed2 (q : ℚ) : ℚ :=
  (round (q * 100) : ℚ) / 100

/-- Result record of `findAspect`: aspect name, orb (as rounded by
`toFixed(2)`), and graded strength. -/
structure AspectInfo where
  name : String
  orb : ℚ
  strength : ℚ
  deriving DecidableEq

/-- One entry of an aspect catalog: name, exact angle, maximum orb,
base strength. -/
structure AspectEntry where
  name : String
  angle : ℚ
  orb : ℚ
  strength : ℚ

/-- The full 8-entry aspect catalog of `findAspect`, in the source's
scan order. -/
def aspectTable8 : List AspectEntry :=
  [⟨"Conjunction", 0, 8, 1⟩,
   ⟨"Semisextile", 30, 3, 0.3⟩,
   ⟨"Sextile", 60, 6, 0.8⟩,
   ⟨"Square", 90, 8, 0.6⟩,
   ⟨"Trine", 120, 8, 0.9⟩,
   ⟨"Sesquiquadrate", 135, 3, 0.4⟩,
   ⟨"Quincunx", 150, 3, 0.3⟩,
   ⟨"Opposition", 180, 8, 0.7⟩]

/-- First-match scan of an aspect catalog at a given angular
separation, mirroring the `for` loop of `findAspect`. -/
def findAspectScan (angle : ℚ) : List AspectEntry → AspectInfo
  | [] => ⟨"None", 0, 0⟩
  | e :: rest =>
    let aspectDiff := |angle - e.angle|
    if aspectDiff ≤ e.orb then
      ⟨e.name, toFixed2 aspectDiff, e.strength * (1 - aspectDiff / e.orb)⟩
    else findAspectScan angle rest

/-- `findAspect(pos1, pos2)` of the source: angular separation folded
to `[0,180]`, then first match in the 8-entry catalog. -/
def findAspect (pos1 pos2 : ℚ) : AspectInfo :=
  let diff := |pos1 - pos2|
  let angle := min diff (360 - diff)
  findAspectScan angle aspectTable8

/-- The 5-entry major-aspect table of `calculateAspectStrength`
(angle, orb, strength), in the source's scan order. -/
def majorTable : List (ℚ × ℚ × ℚ) :=
  [(0, 8, 1), (60, 6, 0.8), (90, 8, 0.6), (120, 8, 0.9), (180, 8, 0.7)]

/-- First-match strength scan mirroring the `for` loop of
`calculateAspectStrength`; non-matching angles yield 0. -/
def strengthScan (angle : ℚ) : List (ℚ × ℚ × ℚ) → ℚ
  | [] => 0
  | (a, orb, str) :: rest =>
    let aspectDiff := |angle - a|
    if aspectDiff ≤ orb then str * (1 - aspectDiff / orb)
    else strengthScan angle rest

/-- `calculateAspectStrength(pos1, pos2)` of the source: angular
separation folded to `[0,180]`, then first match among the five major
aspects only. -/
def calculateAspectStrength (pos1 pos2 : ℚ) : ℚ :=
  let diff := |pos1 - pos2|
  let angle := min diff (360 - diff)
  strengthScan angle majorTable

/-- The aspect strength with the three minor aspects masked to zero:
the value `calculateAspectStrength` realizes relative to the full
8-entry classifier. -/
def majorOnlyStrength (a : AspectInfo) : ℚ :=
  if a.name = "Semisextile" ∨ a.name = "Sesquiquadrate" ∨ a.name = "Quincunx"
  then 0 else a.strength

theorem majorOnly_Conjunction (o s : ℚ) : majorOnlyStrength ⟨"Conjunction", o, s⟩ = s := rfl

theorem majorOnly_Semisextile (o s : ℚ) : majorOnlyStrength ⟨"Semisextile", o, s⟩ = 0 := rfl

theorem majorOnly_Sextile (o s : ℚ) : majorOnlyStrength ⟨"Sextile", o, s⟩ = s := rfl

theorem majorOnly_Square (o s : ℚ) : majorOnlyStrength ⟨"Square", o, s⟩ = s := rfl

theorem majorOnly_Trine (o s : ℚ) : majorOnlyStrength ⟨"Trine", o, s⟩ = s := rfl

theorem majorOnly_Sesquiquadrate (o s : ℚ) : majorOnlyStrength ⟨"Sesquiquadrate", o, s⟩ = 0 := rfl

theorem majorOnly_Quincunx (o s : ℚ) : majorOnlyStrength ⟨"Quincunx", o, s⟩ = 0 := rfl

theorem majorOnly_Opposition (o s : ℚ) : majorOnlyStrength ⟨"Opposition", o, s⟩ = s := rfl

theorem majorOnly_None (o s : ℚ) : majorOnlyStrength ⟨"None", o, s⟩ = s := rfl

set_option maxHeartbeats 1000000 in
/-- Bridge: on every angle, the 5-entry strength scan agrees with the
8-entry classifier except that minor-aspect matches contribute 0. -/
theorem strengthScan_eq_majorOnly (angle : ℚ) :
    strengthScan angle majorTable = majorOnlyStrength (findAspectScan angle aspectTable8) := by
  simp only [strengthScan, findAspectScan, majorTable, aspectTable8]
  split_ifs <;>
    simp only [majorOnly_Conjunction, majorOnly_Semisextile, majorOnly_Sextile,
      majorOnly_Square, majorOnly_Trine, majorOnly_Sesquiquadrate, majorOnly_Quincunx,
      majorOnly_Opposition, majorOnly_None] <;>
    first
      | rfl
      | (exfalso; simp only [abs_le] at *; casesm* _ ∧ _; linarith)

/-- Pointwise bridge between the two position-level strength
functions. -/
theorem calculateAspectStrength_eq_majorOnly (p q : ℚ) :
    calculateAspectStrength p q = majorOnlyStrength (findAspect p q) := by
  unfold calculateAspectStrength findAspect
  exact strengthScan_eq_majorOnly _

/-- C7 — The aspect classifier is symmetric: `classify(a, b)` equals
`classify(b, a)` for every pair of longitudes. -/
theorem findAspect_symm (a b : ℚ) : findAspect a b = findAspect b a := by
  unfold findAspect
  rw [abs_sub_comm]

/-- C8 — Classifying the pair (10, 70) yields separation 60° and the
result Sextile with orb 0 and strength 0.8. -/
theorem findAspect_10_70 :
    min |(10 : ℚ) - 70| (360 - |(10 : ℚ) - 70|) = 60 ∧
      findAspect 10 70 = ⟨"Sextile", 0, 0.8⟩ := by
  refine ⟨by norm_num, ?_⟩
  unfold findAspect
  norm_num [findAspectScan, aspectTable8, toFixed2]

/-- Gregorian calendar selector constant of the source library. -/
def SE_GREG_CAL : ℤ := 1

/-- Julian calendar selector constant of the source library. -/
def SE_JUL_CAL : ℤ := 0

/-- `swe_julday(year, month, day, hour, calendar)` of the source.
Inputs are rationals (JavaScript numbers); `Number.isInteger` is
modelled as the denominator being 1.  A thrown `Error` is modelled as
`none`. -/
def swe_julday (year month day hour : ℚ) (calendar : ℤ) : Option ℚ :=
  if (year.den ≠ 1 ∨ month.den ≠ 1 ∨ day.den ≠ 1 ∨
      month < 1 ∨ month > 12 ∨ day < 1 ∨ day > 31 ∨ hour < 0 ∨ hour ≥ 24) then
    none
  else
    let a : ℚ := (⌊(14 - month) / 12⌋ : ℤ)
    let y : ℚ := year + 4800 - a
    let m : ℚ := month + 12 * a - 3
    let jd : ℚ := day + (⌊(153 * m + 2) / 5⌋ : ℤ) + 365 * y + (⌊y / 4⌋ : ℤ)
    if calendar = SE_GREG_CAL then
      some (jd - (⌊y / 100⌋ : ℤ) + (⌊y / 400⌋ : ℤ) - 32045 + (hour - 12) / 24)
    else if calendar = SE_JUL_CAL then
      some (jd - 32083 + (hour - 12) / 24)
    else none

/-- The Gregorian-to-Julian-Day-Number formula as the specification
states it.  All divisors are positive, so `ℤ` division here is floor
division, matching the spec's `floor` operations. -/
def gregorianJDN (year month day : ℤ) : ℤ :=
  let a := (14 - month) / 12
  let y := year + 4800 - a
  let m := month + 12 * a - 3
  day + (153 * m + 2) / 5 + 365 * y + y / 4 - y / 100 + y / 400 - 32045

/-- C5 — On every valid input, the Julian-day conversion equals the
stated Gregorian formula `jdn + (hour - 12)/24`; in particular
`toJulianDay(2000, 1, 1, 12.0)` returns exactly `2451545.0`. -/
theorem swe_julday_gregorian_formula :
    (∀ (year month day : ℤ) (hour : ℚ), 1 ≤ month → month ≤ 12 → 1 ≤ day → day ≤ 31 →
        0 ≤ hour → hour < 24 →
        swe_julday (year : ℚ) (month : ℚ) (day : ℚ) hour SE_GREG_CAL
          = some ((gregorianJDN year month day : ℚ) + (hour - 12) / 24)) ∧
      swe_julday 2000 1 1 12 SE_GREG_CAL = some 2451545 := by
  have main : ∀ (year month day : ℤ) (hour : ℚ), 1 ≤ month → month ≤ 12 → 1 ≤ day → day ≤ 31 →
      0 ≤ hour → hour < 24 →
      swe_julday (year : ℚ) (month : ℚ) (day : ℚ) hour SE_GREG_CAL
        = some ((gregorianJDN year month day : ℚ) + (hour - 12) / 24) := by
    intro year month day hour hm1 hm2 hd1 hd2 hh1 hh2
    have hcond : ¬(((year : ℚ)).den ≠ 1 ∨ ((month : ℚ)).den ≠ 1 ∨ ((day : ℚ)).den ≠ 1 ∨
        (month : ℚ) < 1 ∨ (month : ℚ) > 12 ∨ (day : ℚ) < 1 ∨ (day : ℚ) > 31 ∨
        hour < 0 ∨ hour ≥ 24) := by
      push_neg
      exact ⟨Rat.den_intCast _, Rat.den_intCast _, Rat.den_intCast _,
        by exact_mod_cast hm1, by exact_mod_cast hm2, by exact_mod_cast hd1,
        by exact_mod_cast hd2, hh1, hh2⟩
    simp only [swe_julday, gregorianJDN]
    rw [if_neg hcond]
    simp only [if_true]
    have hA := Rat.floor_intCast_div_natCast (14 - month) 12
    push_cast at hA
    rw [hA]
    set A := (14 - month) / 12 with hAdef
    have hM := Rat.floor_intCast_div_natCast (153 * (month + 12 * A - 3) + 2) 5
    push_cast at hM
    rw [hM]
    have hY4 := Rat.floor_intCast_div_natCast (year + 4800 - A) 4
    push_cast at hY4
    rw [hY4]
    have hY100 := Rat.floor_intCast_div_natCast (year + 4800 - A) 100
    push_cast at hY100
    rw [hY100]
    have hY400 := Rat.floor_intCast_div_natCast (year + 4800 - A) 400
    push_cast at hY400
    rw [hY400]
    push_cast
    ring_nf
  refine ⟨main, ?_⟩
  have h := main 2000 1 1 12 (by norm_num) (by norm_num) (by norm_num) (by norm_num)
    (by norm_num) (by norm_num)
  have hv : gregorianJDN 2000 1 1 = 2451545 := by decide
  rw [hv] at h
  push_cast at h
  norm_num at h
  exact_mod_cast h

/-- Witness for C5: the general formula evaluated at 1999-02-28, 06:00. -/
theorem swe_julday_gregorian_formula_witness :
    swe_julday ((1999 : ℤ) : ℚ) ((2 : ℤ) : ℚ) ((28 : ℤ) : ℚ) 6 SE_GREG_CAL
      = some ((gregorianJDN 1999 2 28 : ℚ) + (6 - 12) / 24) :=
  swe_julday_gregorian_formula.1 1999 2 28 6 (by norm_num) (by norm_num) (by norm_num)
    (by norm_num) (by norm_num) (by norm_num)

/-- C10 — The day is validated only against the fixed range 1..31, so
calendar-impossible dates such as February 30 are accepted; with the
Gregorian calendar selector, an error is raised exactly when year,
month or day is non-integer, month is outside 1..12, day is outside
1..31, or hour is outside [0, 24). -/
theorem swe_julday_validation :
    (∀ year month day hour : ℚ,
        (swe_julday year month day hour SE_GREG_CAL).isNone ↔
          (year.den ≠ 1 ∨ month.den ≠ 1 ∨ day.den ≠ 1 ∨
            month < 1 ∨ month > 12 ∨ day < 1 ∨ day > 31 ∨ hour < 0 ∨ hour ≥ 24)) ∧
      (swe_julday 2023 2 30 12 SE_GREG_CAL).isSome = true := by
  have main : ∀ year month day hour : ℚ,
      (swe_julday year month day hour SE_GREG_CAL).isNone ↔
        (year.den ≠ 1 ∨ month.den ≠ 1 ∨ day.den ≠ 1 ∨
          month < 1 ∨ month > 12 ∨ day < 1 ∨ day > 31 ∨ hour < 0 ∨ hour ≥ 24) := by
    intro year month day hour
    by_cases h : (year.den ≠ 1 ∨ month.den ≠ 1 ∨ day.den ≠ 1 ∨
        month < 1 ∨ month > 12 ∨ day < 1 ∨ day > 31 ∨ hour < 0 ∨ hour ≥ 24)
    · simp [swe_julday, h]
    · simp [swe_julday, h]
  refine ⟨main, ?_⟩
  rw [Option.isSome_iff_ne_none, ne_eq, ← Option.isNone_iff_eq_none]
  intro hcontra
  rw [main 2023 2 30 12] at hcontra
  simp only [Rat.den_ofNat] at hcontra
  norm_num at hcontra

/-- Witness for C10: a well-formed date is accepted (not an error). -/
theorem swe_julday_validation_witness :
    ¬ (swe_julday 2024 4 31 0 SE_GREG_CAL).isNone := by
  rw [swe_julday_validation.1 2024 4 31 0]
  simp only [Rat.den_ofNat]
  norm_num

/-- `calculateLocalSiderealTime(jd, longitude)` of the SwissEphemeris
class (the variant without a cubic term, the one `swe_houses` calls).
The longitude range check is already performed by `swe_houses` before
the call, so it is not repeated here. -/
def calculateLocalSiderealTime (jd lon : ℚ) : ℚ :=
  let t := (jd - 2451545) / 36525
  let gmst := 280.46061837 + 360.98564736629 * (jd - 2451545) + 0.000387933 * t * t
  let lst := (gmst + lon) / 15
  jsRem (jsRem lst 24 + 24) 24

/-- The 12 equal house cusps computed inside `swe_houses`:
`(lst * 15 + i * 30) % 360` for i = 0..11. -/
def housesList (jd lon : ℚ) : List ℚ :=
  (List.range 12).map
    (fun i : ℕ => jsRem (calculateLocalSiderealTime jd lon * 15 + (i : ℚ) * 30) 360)

/-- Result record of `swe_houses`: 12 cusps, ascendant, midheaven. -/
structure HouseResult where
  houses : List ℚ
  ascendant : ℚ
  mc : ℚ
  deriving DecidableEq

/-- House system identifier constants of the source library. -/
def SE_HSYS_PLACIDUS : String := "P"

/-- Koch house system identifier. -/
def SE_HSYS_KOCH : String := "K"

/-- Equal house system identifier. -/
def SE_HSYS_EQUAL : String := "E"

/-- `swe_houses(tjd_ut, lat, lon, hsys)` of the source; a thrown
`Error` is modelled as `none`.  (`Number.isFinite` always holds of a
rational, so only the range and house-system checks remain.) -/
def swe_houses (tjd_ut lat lon : ℚ) (hsys : String) : Option HouseResult :=
  if |lat| > 90 ∨ |lon| > 180 then none
  else if ¬(hsys = SE_HSYS_PLACIDUS ∨ hsys = SE_HSYS_KOCH ∨ hsys = SE_HSYS_EQUAL) then none
  else
    let houses := housesList tjd_ut lon
    some ⟨houses, houses.getD 0 0, houses.getD 9 0⟩

/-- The loop-body membership test of `getPlanetHouse`: is position
`p` inside the cyclic arc from cusp `i` to the following cusp? -/
def arcCond (p : ℚ) (hs : List ℚ) (i : ℕ) : Bool :=
  let currentHouse := hs.getD i 0
  let nextHouse := hs.getD (if i = 11 then 0 else i + 1) 0
  if currentHouse ≤ nextHouse then
    decide (currentHouse ≤ p) && decide (p < nextHouse)
  else
    decide (p ≥ currentHouse) || decide (p < nextHouse)

/-- The scanning loop of `getPlanetHouse`: `i` is the current house
index, the fuel argument counts remaining iterations, and exhausting
the loop falls through to `return 1`. -/
def scanHouse (p : ℚ) (hs : List ℚ) : ℕ → ℕ → ℕ
  | _, 0 => 1
  | i, fuel + 1 => if arcCond p hs i then i + 1 else scanHouse p hs (i + 1) fuel

/-- `getPlanetHouse(planetPosition, houses)` of the source. -/
def getPlanetHouse (p : ℚ) (hs : List ℚ) : ℕ :=
  scanHouse p hs 0 12

/-- For a nonnegative dividend the JavaScript remainder is the
floor-based remainder. -/
theorem jsRem_of_nonneg {a m : ℚ} (ha : 0 ≤ a) (hm : 0 < m) :
    jsRem a m = a - m * ⌊a / m⌋ := by
  unfold jsRem ratTrunc
  rw [if_pos (div_nonneg ha hm.le)]

/-- The JavaScript remainder lies strictly between `-m` and `m`. -/
theorem jsRem_bounds (a : ℚ) {m : ℚ} (hm : 0 < m) : -m < jsRem a m ∧ jsRem a m < m := by
  unfold jsRem ratTrunc
  have hq : m * (a / m) = a := mul_div_cancel₀ a (ne_of_gt hm)
  split_ifs with h
  · have h1 := Int.floor_le (a / m)
    have h2 := Int.lt_floor_add_one (a / m)
    constructor <;> nlinarith
  · have h1 := Int.le_ceil (a / m)
    have h2 := Int.ceil_lt_add_one (a / m)
    constructor <;> nlinarith

/-- For a nonnegative dividend the JavaScript remainder is
nonnegative. -/
theorem jsRem_nonneg {a m : ℚ} (ha : 0 ≤ a) (hm : 0 < m) : 0 ≤ jsRem a m := by
  rw [jsRem_of_nonneg ha hm]
  have h1 := Int.floor_le (a / m)
  have hq : m * (a / m) = a := mul_div_cancel₀ a (ne_of_gt hm)
  nlinarith

/-- The fold-into-range pattern `((x % 24) + 24) % 24` always lands in
`[0, 24)`. -/
theorem jsRem_wrap24 (x : ℚ) :
    0 ≤ jsRem (jsRem x 24 + 24) 24 ∧ jsRem (jsRem x 24 + 24) 24 < 24 := by
  have h24 : (0 : ℚ) < 24 := by norm_num
  refine ⟨jsRem_nonneg ?_ h24, (jsRem_bounds _ h24).2⟩
  linarith [(jsRem_bounds x h24).1]

/-- The local sidereal time always lands in `[0, 24)`. -/
theorem lst_bounds (jd lon : ℚ) :
    0 ≤ calculateLocalSiderealTime jd lon ∧ calculateLocalSiderealTime jd lon < 24 := by
  unfold calculateLocalSiderealTime
  exact jsRem_wrap24 _

/-- Reading cusp `i` out of the cusp list, for `i < 12`. -/
theorem housesList_getD (jd lon : ℚ) (i : ℕ) (hi : i < 12) :
    (housesList jd lon).getD i 0
      = jsRem (calculateLocalSiderealTime jd lon * 15 + i * 30) 360 := by
  unfold housesList
  rw [List.getD_eq_getElem?_getD, List.getElem?_map, List.getElem?_range hi]
  rfl

/-- The remainder modulo 360 on `[0, 720)` just subtracts 360 once if
needed. -/
theorem jsRem_360 {x : ℚ} (h0 : 0 ≤ x) (h1 : x < 720) :
    jsRem x 360 = if x < 360 then x else x - 360 := by
  rw [jsRem_of_nonneg h0 (by norm_num)]
  split_ifs with h
  · have hf : ⌊x / 360⌋ = 0 := by
      rw [Int.floor_eq_zero_iff]
      constructor
      · positivity
      · rw [div_lt_one (by norm_num)]; linarith
    rw [hf]; ring
  · have hf : ⌊x / 360⌋ = 1 := by
      rw [Int.floor_eq_iff]
      constructor
      · rw [le_div_iff₀ (by norm_num)]; push_cast; linarith
      · rw [div_lt_iff₀ (by norm_num)]; push_cast; linarith
    rw [hf]; ring

/-- Cyclic offset of position `p` ahead of base point `b` on the
360° circle (both taken in `[0, 360)`). -/
def wrapDiff (p b : ℚ) : ℚ :=
  if p < b then p - b + 360 else p - b

/-- The cyclic offset stays in `[0, 360)`. -/
theorem wrapDiff_bounds {p b : ℚ} (hp0 : 0 ≤ p) (hp1 : p < 360) (hb0 : 0 ≤ b)
    (hb1 : b < 360) : 0 ≤ wrapDiff p b ∧ wrapDiff p b < 360 := by
  unfold wrapDiff
  split_ifs <;> constructor <;> linarith

/-- Propositional reading of the loop-body membership test. -/
theorem arcCond_true_iff (p : ℚ) (hs : List ℚ) (i : ℕ) :
    arcCond p hs i = true ↔
      (if hs.getD i 0 ≤ hs.getD (if i = 11 then 0 else i + 1) 0
       then hs.getD i 0 ≤ p ∧ p < hs.getD (if i = 11 then 0 else i + 1) 0
       else hs.getD i 0 ≤ p ∨ p < hs.getD (if i = 11 then 0 else i + 1) 0) := by
  simp only [arcCond]
  by_cases h : hs.getD i 0 ≤ hs.getD (if i = 11 then 0 else i + 1) 0
  · rw [if_pos h, if_pos h]
    simp only [Bool.and_eq_true, decide_eq_true_eq]
  · rw [if_neg h, if_neg h]
    simp only [ge_iff_le, Bool.or_eq_true, decide_eq_true_eq]

set_option maxHeartbeats 1600000 in
/-- Geometric heart of the house assignment: for equally spaced cusps
`(b + 30j) % 360`, membership in the code's arc `i` is exactly
membership of the cyclic offset `wrapDiff p b` in `[30i, 30i + 30)`. -/
theorem arcWindow (b p : ℚ) (hs : List ℚ) (i : ℕ) (hi : i < 12)
    (hcusp : ∀ j : ℕ, j < 12 → hs.getD j 0 = jsRem (b + (j : ℚ) * 30) 360)
    (hb0 : 0 ≤ b) (hb1 : b < 360) (hp0 : 0 ≤ p) (hp1 : p < 360) :
    (arcCond p hs i = true) ↔
      (30 * (i : ℚ) ≤ wrapDiff p b ∧ wrapDiff p b < 30 * (i : ℚ) + 30) := by
  have hiQ : (i : ℚ) ≤ 11 := by exact_mod_cast Nat.lt_succ_iff.mp hi
  have hiQ0 : (0 : ℚ) ≤ (i : ℚ) := Nat.cast_nonneg i
  rw [arcCond_true_iff]
  by_cases h11 : i = 11
  · subst h11
    have en : hs.getD (if 11 = 11 then 0 else 11 + 1) 0 = b := by
      rw [show (if 11 = 11 then 0 else 11 + 1) = 0 from rfl, hcusp 0 (by norm_num),
        show b + ((0 : ℕ) : ℚ) * 30 = b by push_cast; ring,
        jsRem_360 hb0 (by linarith), if_pos hb1]
    have ec : hs.getD 11 0 = if b + 330 < 360 then b + 330 else b - 30 := by
      rw [hcusp 11 (by norm_num), show b + ((11 : ℕ) : ℚ) * 30 = b + 330 by push_cast; ring,
        jsRem_360 (by linarith) (by linarith)]
      split_ifs <;> ring
    rw [en, ec]
    unfold wrapDiff
    push_cast
    split_ifs <;>
      (constructor <;> intro h <;> casesm* _ ∧ _, _ ∨ _ <;>
        first
          | (constructor <;> linarith)
          | (left; linarith)
          | (right; linarith))
  · have hi11 : i < 11 := by omega
    have hiQ11 : (i : ℚ) ≤ 10 := by exact_mod_cast Nat.lt_succ_iff.mp hi11
    have ec : hs.getD i 0
        = if b + (i : ℚ) * 30 < 360 then b + (i : ℚ) * 30 else b + (i : ℚ) * 30 - 360 := by
      rw [hcusp i hi, jsRem_360 (by positivity) (by nlinarith)]
    have en : hs.getD (if i = 11 then 0 else i + 1) 0
        = if b + (i : ℚ) * 30 + 30 < 360 then b + (i : ℚ) * 30 + 30
          else b + (i : ℚ) * 30 + 30 - 360 := by
      rw [if_neg h11, hcusp (i + 1) (by omega),
        show b + ((i + 1 : ℕ) : ℚ) * 30 = b + (i : ℚ) * 30 + 30 by push_cast; ring,
        jsRem_360 (by positivity) (by nlinarith)]
    rw [ec, en]
    unfold wrapDiff
    split_ifs <;>
      (constructor <;> intro h <;> casesm* _ ∧ _, _ ∨ _ <;>
        first
          | (constructor <;> linarith)
          | (left; linarith)
          | (right; linarith))

/-- Every offset in `[0, 360)` lies in exactly one of the twelve
30°-wide windows. -/
theorem window_exists (d : ℚ) (h0 : 0 ≤ d) (h1 : d < 360) :
    ∃ i : ℕ, i < 12 ∧ 30 * (i : ℚ) ≤ d ∧ d < 30 * (i : ℚ) + 30 := by
  have hf0 : 0 ≤ ⌊d / 30⌋ := Int.floor_nonneg.mpr (by positivity)
  have hfle := Int.floor_le (d / 30)
  have hflt := Int.lt_floor_add_one (d / 30)
  have hlt12 : ⌊d / 30⌋ < 12 := by
    apply Int.floor_lt.mpr
    rw [div_lt_iff₀ (by norm_num)]
    push_cast
    linarith
  refine ⟨(⌊d / 30⌋).toNat, by omega, ?_, ?_⟩
  · rw [show (((⌊d / 30⌋).toNat : ℕ) : ℚ) = ((⌊d / 30⌋ : ℤ) : ℚ) by
      exact_mod_cast congrArg Int.cast (Int.toNat_of_nonneg hf0)]
    rw [le_div_iff₀ (by norm_num : (0:ℚ) < 30)] at hfle
    linarith
  · rw [show (((⌊d / 30⌋).toNat : ℕ) : ℚ) = ((⌊d / 30⌋ : ℤ) : ℚ) by
      exact_mod_cast congrArg Int.cast (Int.toNat_of_nonneg hf0)]
    rw [div_lt_iff₀ (by norm_num : (0:ℚ) < 30)] at hflt
    linarith

/-- The 30°-wide windows are pairwise disjoint. -/
theorem window_unique (d : ℚ) (i j : ℕ)
    (hi : 30 * (i : ℚ) ≤ d ∧ d < 30 * (i : ℚ) + 30)
    (hj : 30 * (j : ℚ) ≤ d ∧ d < 30 * (j : ℚ) + 30) : i = j := by
  rcases lt_trichotomy i j with h | h | h
  · exfalso
    have : ((i : ℚ)) + 1 ≤ (j : ℚ) := by exact_mod_cast h
    linarith [hi.2, hj.1]
  · exact h
  · exfalso
    have : ((j : ℚ)) + 1 ≤ (i : ℚ) := by exact_mod_cast h
    linarith [hj.2, hi.1]

/-- The scanning loop returns `i₀ + 1` when `i₀` is the first index at
which the membership test fires. -/
theorem scanHouse_finds (p : ℚ) (hs : List ℚ) :
    ∀ (fuel i i₀ : ℕ), i₀ < i + fuel → i ≤ i₀ →
      (∀ j, i ≤ j → j < i₀ → arcCond p hs j = false) →
      arcCond p hs i₀ = true → scanHouse p hs i fuel = i₀ + 1 := by
  intro fuel
  induction fuel with
  | zero => intro i i₀ h1 h2 _ _; omega
  | succ n ih =>
    intro i i₀ h1 h2 hfalse htrue
    show (if arcCond p hs i then i + 1 else scanHouse p hs (i + 1) n) = i₀ + 1
    by_cases hc : arcCond p hs i = true
    · rw [if_pos hc]
      rcases Nat.eq_or_lt_of_le h2 with he | hlt
      · omega
      · exfalso
        have hfi := hfalse i le_rfl hlt
        rw [hc] at hfi
        exact absurd hfi (by decide)
    · rw [if_neg hc]
      have hne : i ≠ i₀ := by
        intro he
        exact hc (he ▸ htrue)
      exact ih (i + 1) i₀ (by omega) (by omega)
        (fun j hj1 hj2 => hfalse j (by omega) hj2) htrue

/-- C6 — For every longitude `p` in `[0, 360)` and any cusp sequence
produced by the house computation, the twelve cyclic arcs partition
the circle: `p` satisfies the code's membership test for exactly one
house index, and `getPlanetHouse` returns that index plus one, a
value in 1..12. -/
theorem getPlanetHouse_partition (jd lat lon p : ℚ)
    (hlat : |lat| ≤ 90) (hlon : |lon| ≤ 180) (hp0 : 0 ≤ p) (hp1 : p < 360) :
    swe_houses jd lat lon SE_HSYS_PLACIDUS
        = some ⟨housesList jd lon, (housesList jd lon).getD 0 0,
            (housesList jd lon).getD 9 0⟩ ∧
      (∃ i : ℕ, i < 12 ∧ arcCond p (housesList jd lon) i = true ∧
        (∀ j : ℕ, j < 12 → arcCond p (housesList jd lon) j = true → j = i) ∧
        getPlanetHouse p (housesList jd lon) = i + 1) ∧
      1 ≤ getPlanetHouse p (housesList jd lon) ∧
        getPlanetHouse p (housesList jd lon) ≤ 12 := by
  have hL := lst_bounds jd lon
  have hb0 : 0 ≤ calculateLocalSiderealTime jd lon * 15 := by linarith [hL.1]
  have hb1 : calculateLocalSiderealTime jd lon * 15 < 360 := by linarith [hL.2]
  have hcusp : ∀ j : ℕ, j < 12 → (housesList jd lon).getD j 0
      = jsRem (calculateLocalSiderealTime jd lon * 15 + (j : ℚ) * 30) 360 :=
    fun j hj => housesList_getD jd lon j hj
  have hwd := wrapDiff_bounds hp0 hp1 hb0 hb1
  obtain ⟨i, hi12, hwin1, hwin2⟩ :=
    window_exists (wrapDiff p (calculateLocalSiderealTime jd lon * 15)) hwd.1 hwd.2
  have harc : ∀ j : ℕ, j < 12 →
      (arcCond p (housesList jd lon) j = true ↔
        (30 * (j : ℚ) ≤ wrapDiff p (calculateLocalSiderealTime jd lon * 15) ∧
          wrapDiff p (calculateLocalSiderealTime jd lon * 15) < 30 * (j : ℚ) + 30)) :=
    fun j hj => arcWindow _ p _ j hj hcusp hb0 hb1 hp0 hp1
  have htrue : arcCond p (housesList jd lon) i = true := (harc i hi12).mpr ⟨hwin1, hwin2⟩
  have huniq : ∀ j : ℕ, j < 12 → arcCond p (housesList jd lon) j = true → j = i := by
    intro j hj hjt
    exact window_unique _ j i ((harc j hj).mp hjt) ⟨hwin1, hwin2⟩
  have hfalse : ∀ j : ℕ, 0 ≤ j → j < i → arcCond p (housesList jd lon) j = false := by
    intro j _ hji
    have hj12 : j < 12 := by omega
    by_contra hne
    simp only [Bool.not_eq_false] at hne
    have := huniq j hj12 hne
    omega
  have hgp : getPlanetHouse p (housesList jd lon) = i + 1 :=
    scanHouse_finds p (housesList jd lon) 12 0 i (by omega) (by omega)
      (fun j hj0 hji => hfalse j hj0 hji) htrue
  refine ⟨?_, ⟨i, hi12, htrue, huniq, hgp⟩, ?_, ?_⟩
  · unfold swe_houses
    rw [if_neg (by push_neg; exact ⟨hlat, hlon⟩), if_neg (not_not_intro (Or.inl rfl))]
  · rw [hgp]; omega
  · rw [hgp]; omega

/-- Witness for C6: the partition property at J2000, the origin
coordinate, and longitude 123°. -/
theorem getPlanetHouse_partition_witness :
    swe_houses 2451545 0 0 SE_HSYS_PLACIDUS
        = some ⟨housesList 2451545 0, (housesList 2451545 0).getD 0 0,
            (housesList 2451545 0).getD 9 0⟩ ∧
      (∃ i : ℕ, i < 12 ∧ arcCond 123 (housesList 2451545 0) i = true ∧
        (∀ j : ℕ, j < 12 → arcCond 123 (housesList 2451545 0) j = true → j = i) ∧
        getPlanetHouse 123 (housesList 2451545 0) = i + 1) ∧
      1 ≤ getPlanetHouse 123 (housesList 2451545 0) ∧
        getPlanetHouse 123 (housesList 2451545 0) ≤ 12 :=
  getPlanetHouse_partition 2451545 0 0 123 (by norm_num) (by norm_num) (by norm_num)
    (by norm_num)

/-- Validity of the coordinate makes `swe_houses` succeed with the
equal-house cusp list. -/
theorem swe_houses_valid (jd lat lon : ℚ) (hlat : |lat| ≤ 90) (hlon : |lon| ≤ 180) :
    swe_houses jd lat lon SE_HSYS_PLACIDUS
      = some ⟨housesList jd lon, (housesList jd lon).getD 0 0,
          (housesList jd lon).getD 9 0⟩ := by
  unfold swe_houses
  rw [if_neg (by push_neg; exact ⟨hlat, hlon⟩), if_neg (not_not_intro (Or.inl rfl))]

/-- A natal chart as the synastry engine consumes it: the sixteen
body positions plus the birth data that the house-overlay step
re-derives houses from (`jd` from dateOfBirth/timeOfBirth via
`dateToJulianDay`, and `lat`/`lon` the geocoded coordinate of
placeOfBirth — geocoding an unchanged location string is modelled as
deterministic). -/
structure Chart where
  sunPosition : ℚ
  moonPosition : ℚ
  mercuryPosition : ℚ
  venusPosition : ℚ
  marsPosition : ℚ
  jupiterPosition : ℚ
  saturnPosition : ℚ
  uranusPosition : ℚ
  neptunePosition : ℚ
  plutoPosition : ℚ
  trueNodePosition : ℚ
  chironPosition : ℚ
  fortunaPosition : ℚ
  vertexPosition : ℚ
  ascendantPosition : ℚ
  midHeavenPosition : ℚ
  jd : ℚ
  lat : ℚ
  lon : ℚ
  deriving DecidableEq

/-- The 16-element position lists `planets1`/`planets2` of
`calculateFullChartSynastry`, in source order. -/
def chartPoints (u : Chart) : List ℚ :=
  [u.sunPosition, u.moonPosition, u.mercuryPosition, u.venusPosition,
   u.marsPosition, u.jupiterPosition, u.saturnPosition, u.uranusPosition,
   u.neptunePosition, u.plutoPosition, u.trueNodePosition, u.chironPosition,
   u.fortunaPosition, u.vertexPosition, u.ascendantPosition, u.midHeavenPosition]

/-- The 12-element position lists of `calculateSynastryAspects`
(ten planets plus ascendant and midheaven), in source order. -/
def synPoints (u : Chart) : List ℚ :=
  [u.sunPosition, u.moonPosition, u.mercuryPosition, u.venusPosition,
   u.marsPosition, u.jupiterPosition, u.saturnPosition, u.uranusPosition,
   u.neptunePosition, u.plutoPosition, u.ascendantPosition, u.midHeavenPosition]

/-- `calculateVenusMarsSynastry(user1, user2)` of the source. -/
def calculateVenusMarsSynastry (user1 user2 : Chart) : ℚ :=
  (calculateAspectStrength user1.venusPosition user2.marsPosition
    + calculateAspectStrength user2.venusPosition user1.marsPosition) / 2

/-- `calculateFullChartSynastry(user1, user2)` of the source: the
nested loops accumulate all pairwise strengths and the pair count,
then divide (guarding an empty count with 0). -/
def calculateFullChartSynastry (user1 user2 : Chart) : ℚ :=
  let totalAspects :=
    ((chartPoints user1).map
      (fun p => ((chartPoints user2).map (fun q => calculateAspectStrength p q)).sum)).sum
  let aspectCount := (chartPoints user1).length * (chartPoints user2).length
  if aspectCount > 0 then totalAspects / (aspectCount : ℚ) else 0

/-- Result of `calculateSynastryAspects`: mean strength and the
number of pairings.  (The displayed per-pair aspect records carry no
further numeric content used by the scoring and are not modelled.) -/
structure SynastryAspects where
  score : ℚ
  count : ℕ
  deriving DecidableEq

/-- `calculateSynastryAspects(user1, user2)` of the source, reduced
to its score and count. -/
def calculateSynastryAspects (user1 user2 : Chart) : SynastryAspects :=
  let totalScore :=
    ((synPoints user1).map
      (fun p => ((synPoints user2).map (fun q => (findAspect p q).strength)).sum)).sum
  let count := (synPoints user1).length * (synPoints user2).length
  ⟨if count > 0 then totalScore / (count : ℚ) else 0, count⟩

/-- The six chartA bodies examined by `calculateHouseTranspositions`,
in source order. -/
def overlayPoints (u : Chart) : List ℚ :=
  [u.sunPosition, u.moonPosition, u.venusPosition, u.marsPosition,
   u.jupiterPosition, u.saturnPosition]

/-- Result of `calculateHouseTranspositions`: the per-body house
placements, the score, and the counters. -/
structure HouseTranspositions where
  transpositions : List ℕ
  score : ℚ
  harmoniousCount : ℕ
  totalPlacements : ℕ
  deriving DecidableEq

/-- `calculateHouseTranspositions(user1, user2)` of the source: it
recomputes user2's houses from user2's own birth data (Julian day and
geocoded coordinate) and counts user1's six bodies landing in the
harmonious houses 1, 5, 7, 9, 11; a geocode/houses failure is
`none`. -/
def calculateHouseTranspositions (user1 user2 : Chart) : Option HouseTranspositions :=
  match swe_houses user2.jd user2.lat user2.lon SE_HSYS_PLACIDUS with
  | none => none
  | some hr =>
    let houses := (overlayPoints user1).map (fun p => getPlanetHouse p hr.houses)
    let harmoniousCount := houses.countP (fun h => [1, 5, 7, 9, 11].contains h)
    some ⟨houses,
      if (overlayPoints user1).length > 0
      then (harmoniousCount : ℚ) / ((overlayPoints user1).length : ℚ) else 0,
      harmoniousCount, (overlayPoints user1).length⟩

/-- Result of `calculateCompatibility`: the combined score and the
four sub-results. -/
structure CompatibilityResult where
  compatibilityScore : ℚ
  venusMarsSynastry : ℚ
  fullChartSynastry : ℚ
  synastryAspects : SynastryAspects
  houseTranspositions : HouseTranspositions
  deriving DecidableEq

/-- `calculateCompatibility(user1, user2)` of the source: the four
sub-scores combined with the fixed weights 0.4, 0.3, 0.2, 0.1. -/
def calculateCompatibility (user1 user2 : Chart) : Option CompatibilityResult :=
  match calculateHouseTranspositions user1 user2 with
  | none => none
  | some houseTranspositions =>
    let venusMarsSynastry := calculateVenusMarsSynastry user1 user2
    let fullChartSynastry := calculateFullChartSynastry user1 user2
    let synastryAspects := calculateSynastryAspects user1 user2
    some ⟨venusMarsSynastry * 0.4 + fullChartSynastry * 0.3
        + synastryAspects.score * 0.2 + houseTranspositions.score * 0.1,
      venusMarsSynastry, fullChartSynastry, synastryAspects, houseTranspositions⟩

/-- A concrete chart (all positions 0, J2000 birth, origin
coordinate) used to instantiate hypotheses in witnesses. -/
def zeroChart : Chart :=
  ⟨0, 0, 0, 0, 0, 0, 0, 0, 0, 0, 0, 0, 0, 0, 0, 0, 2451545, 0, 0⟩

/-- C1 — The combined compatibility score is
`0.4 * venusMars + 0.3 * fullChart + 0.2 * synastryAspect +
0.1 * houseOverlay`, and the four fixed weights sum to 1. -/
theorem calculateCompatibility_weighted (user1 user2 : Chart)
    (hlat : |user2.lat| ≤ 90) (hlon : |user2.lon| ≤ 180) :
    ∃ r : CompatibilityResult,
      calculateCompatibility user1 user2 = some r ∧
      r.venusMarsSynastry = calculateVenusMarsSynastry user1 user2 ∧
      r.fullChartSynastry = calculateFullChartSynastry user1 user2 ∧
      r.synastryAspects = calculateSynastryAspects user1 user2 ∧
      r.compatibilityScore
        = 0.4 * r.venusMarsSynastry + 0.3 * r.fullChartSynastry
          + 0.2 * r.synastryAspects.score + 0.1 * r.houseTranspositions.score ∧
      (0.4 : ℚ) + 0.3 + 0.2 + 0.1 = 1 := by
  obtain ⟨ht, hht⟩ : ∃ ht, calculateHouseTranspositions user1 user2 = some ht := by
    unfold calculateHouseTranspositions
    rw [swe_houses_valid _ _ _ hlat hlon]
    exact ⟨_, rfl⟩
  have hmain : calculateCompatibility user1 user2 = some
      ⟨calculateVenusMarsSynastry user1 user2 * 0.4
          + calculateFullChartSynastry user1 user2 * 0.3
          + (calculateSynastryAspects user1 user2).score * 0.2 + ht.score * 0.1,
        calculateVenusMarsSynastry user1 user2, calculateFullChartSynastry user1 user2,
        calculateSynastryAspects user1 user2, ht⟩ := by
    unfold calculateCompatibility
    rw [hht]
  exact ⟨_, hmain, rfl, rfl, rfl, by ring, by norm_num⟩

/-- Witness for C1: the weighted-combination property for two copies
of the concrete zero chart. -/
theorem calculateCompatibility_weighted_witness :
    ∃ r : CompatibilityResult,
      calculateCompatibility zeroChart zeroChart = some r ∧
      r.venusMarsSynastry = calculateVenusMarsSynastry zeroChart zeroChart ∧
      r.fullChartSynastry = calculateFullChartSynastry zeroChart zeroChart ∧
      r.synastryAspects = calculateSynastryAspects zeroChart zeroChart ∧
      r.compatibilityScore
        = 0.4 * r.venusMarsSynastry + 0.3 * r.fullChartSynastry
          + 0.2 * r.synastryAspects.score + 0.1 * r.houseTranspositions.score ∧
      (0.4 : ℚ) + 0.3 + 0.2 + 0.1 = 1 :=
  calculateCompatibility_weighted zeroChart zeroChart (by norm_num [zeroChart])
    (by norm_num [zeroChart])

/-- C4 — The house-overlay sub-score is the fraction of the six chartA
bodies (Sun, Moon, Venus, Mars, Jupiter, Saturn) whose positions fall
in a house of the set 1, 5, 7, 9, 11, with chartB's houses recomputed
from chartB's own Julian day and coordinate. -/
theorem calculateHouseTranspositions_score (user1 user2 : Chart)
    (hlat : |user2.lat| ≤ 90) (hlon : |user2.lon| ≤ 180) :
    ∃ t : HouseTranspositions,
      calculateHouseTranspositions user1 user2 = some t ∧
      t.score = ((overlayPoints user1).countP
          (fun p => [1, 5, 7, 9, 11].contains
            (getPlanetHouse p (housesList user2.jd user2.lon))) : ℚ) / 6 := by
  have hmain : calculateHouseTranspositions user1 user2 = some
      ⟨(overlayPoints user1).map (fun p => getPlanetHouse p (housesList user2.jd user2.lon)),
        if (overlayPoints user1).length > 0
        then ((((overlayPoints user1).map
            (fun p => getPlanetHouse p (housesList user2.jd user2.lon))).countP
              (fun h => [1, 5, 7, 9, 11].contains h) : ℕ) : ℚ)
          / ((overlayPoints user1).length : ℚ)
        else 0,
        ((overlayPoints user1).map
            (fun p => getPlanetHouse p (housesList user2.jd user2.lon))).countP
          (fun h => [1, 5, 7, 9, 11].contains h),
        (overlayPoints user1).length⟩ := by
    unfold calculateHouseTranspositions
    rw [swe_houses_valid _ _ _ hlat hlon]
  refine ⟨_, hmain, ?_⟩
  show (if (overlayPoints user1).length > 0
      then ((((overlayPoints user1).map
          (fun p => getPlanetHouse p (housesList user2.jd user2.lon))).countP
            (fun h => [1, 5, 7, 9, 11].contains h) : ℕ) : ℚ)
        / ((overlayPoints user1).length : ℚ)
      else 0) = _
  rw [List.countP_map]
  have hlen : (overlayPoints user1).length = 6 := rfl
  rw [if_pos (by rw [hlen]; norm_num), hlen]
  rfl

/-- Witness for C4: the house-overlay score shape for two copies of
the concrete zero chart. -/
theorem calculateHouseTranspositions_score_witness :
    ∃ t : HouseTranspositions,
      calculateHouseTranspositions zeroChart zeroChart = some t ∧
      t.score = ((overlayPoints zeroChart).countP
          (fun p => [1, 5, 7, 9, 11].contains
            (getPlanetHouse p (housesList zeroChart.jd zeroChart.lon))) : ℚ) / 6 :=
  calculateHouseTranspositions_score zeroChart zeroChart (by norm_num [zeroChart])
    (by norm_num [zeroChart])

/-- The Venus–Mars cross score as the specification words it: the
average of the full 8-entry classifier strengths of the two
Venus-to-Mars pairings. -/
def venusMarsSpec (user1 user2 : Chart) : ℚ :=
  ((findAspect user1.venusPosition user2.marsPosition).strength
    + (findAspect user2.venusPosition user1.marsPosition).strength) / 2

/-- The full-chart score as the specification words it: the mean of
the full 8-entry classifier strength over all 16 × 16 = 256
cross-pairings. -/
def fullChartSpec (user1 user2 : Chart) : ℚ :=
  (((chartPoints user1).map
    (fun p => ((chartPoints user2).map (fun q => (findAspect p q).strength)).sum)).sum) / 256

/-- A concrete chart whose Mars sits at 30° with every other position
at 0°: each Venus-to-Mars pairing is an exact Semisextile. -/
def chartMars30 : Chart :=
  ⟨0, 0, 0, 0, 30, 0, 0, 0, 0, 0, 0, 0, 0, 0, 0, 0, 2451545, 0, 0⟩

/-- A concrete chart with every position at 30°. -/
def chartAll30 : Chart :=
  ⟨30, 30, 30, 30, 30, 30, 30, 30, 30, 30, 30, 30, 30, 30, 30, 30, 2451545, 0, 0⟩

/-- Counterexample to C2 as stated: with both Venus–Mars pairings at
an exact 30° Semisextile, the code's sub-score is 0 while the 8-entry
classifier average is 0.3. -/
theorem calculateVenusMarsSynastry_ne_spec :
    calculateVenusMarsSynastry chartMars30 chartMars30
      ≠ venusMarsSpec chartMars30 chartMars30 := by
  norm_num [calculateVenusMarsSynastry, venusMarsSpec, chartMars30,
    calculateAspectStrength, findAspect, strengthScan, findAspectScan, majorTable,
    aspectTable8, toFixed2]

/-- C2 (amended) — The Venus–Mars cross sub-score is the average of
the classifier strengths of the two pairings, where only the five
major aspects count and a minor-aspect match (Semisextile,
Sesquiquadrate, Quincunx) contributes 0. -/
theorem calculateVenusMarsSynastry_major (user1 user2 : Chart) :
    calculateVenusMarsSynastry user1 user2
      = (majorOnlyStrength (findAspect user1.venusPosition user2.marsPosition)
          + majorOnlyStrength (findAspect user2.venusPosition user1.marsPosition)) / 2 := by
  unfold calculateVenusMarsSynastry
  rw [calculateAspectStrength_eq_majorOnly, calculateAspectStrength_eq_majorOnly]

/-- Counterexample to C3 as stated: with all 256 cross-pairings at an
exact 30° Semisextile, the code's full-chart score is 0 while the
8-entry mean is 0.3. -/
theorem calculateFullChartSynastry_ne_spec :
    calculateFullChartSynastry zeroChart chartAll30
      ≠ fullChartSpec zeroChart chartAll30 := by
  norm_num [calculateFullChartSynastry, fullChartSpec, zeroChart, chartAll30, chartPoints,
    calculateAspectStrength, findAspect, strengthScan, findAspectScan, majorTable,
    aspectTable8, toFixed2]

/-- C3 (amended) — The full-chart sub-score is the mean classifier
strength over all 16 × 16 = 256 cross-pairings, every pairing counted
and none excluded, where only the five major aspects count (a
minor-aspect or non-matching pairing contributes 0). -/
theorem calculateFullChartSynastry_major (user1 user2 : Chart) :
    calculateFullChartSynastry user1 user2
      = (((chartPoints user1).map
          (fun p => ((chartPoints user2).map
            (fun q => majorOnlyStrength (findAspect p q))).sum)).sum) / 256 := by
  unfold calculateFullChartSynastry
  simp only [calculateAspectStrength_eq_majorOnly]
  have hlen : (chartPoints user1).length * (chartPoints user2).length = 256 := by
    simp [chartPoints]
  rw [hlen]
  norm_num

/-- A tapered strength `s * (1 - d/orb)` stays in `[0, 1]`. -/
theorem taper_bounds {d orb s : ℚ} (hd : 0 ≤ d) (hdo : d ≤ orb) (ho : 0 < orb)
    (hs0 : 0 ≤ s) (hs1 : s ≤ 1) : 0 ≤ s * (1 - d / orb) ∧ s * (1 - d / orb) ≤ 1 := by
  have h1 : d / orb ≤ 1 := (div_le_one ho).mpr hdo
  have h0 : 0 ≤ d / orb := div_nonneg hd ho.le
  constructor
  · exact mul_nonneg hs0 (by linarith)
  · nlinarith

/-- The 5-entry strength scan yields values in `[0, 1]`. -/
theorem strengthScan_bounds (angle : ℚ) :
    0 ≤ strengthScan angle majorTable ∧ strengthScan angle majorTable ≤ 1 := by
  simp only [strengthScan, majorTable]
  split_ifs with h1 h2 h3 h4 h5
  · exact taper_bounds (abs_nonneg _) h1 (by norm_num) (by norm_num) (by norm_num)
  · exact taper_bounds (abs_nonneg _) h2 (by norm_num) (by norm_num) (by norm_num)
  · exact taper_bounds (abs_nonneg _) h3 (by norm_num) (by norm_num) (by norm_num)
  · exact taper_bounds (abs_nonneg _) h4 (by norm_num) (by norm_num) (by norm_num)
  · exact taper_bounds (abs_nonneg _) h5 (by norm_num) (by norm_num) (by norm_num)
  · norm_num

/-- The strength field of the 8-entry classification stays in
`[0, 1]`. -/
theorem findAspectScan_bounds (angle : ℚ) :
    0 ≤ (findAspectScan angle aspectTable8).strength ∧
      (findAspectScan angle aspectTable8).strength ≤ 1 := by
  simp only [findAspectScan, aspectTable8]
  split_ifs with h1 h2 h3 h4 h5 h6 h7 h8
  · exact taper_bounds (abs_nonneg _) h1 (by norm_num) (by norm_num) (by norm_num)
  · exact taper_bounds (abs_nonneg _) h2 (by norm_num) (by norm_num) (by norm_num)
  · exact taper_bounds (abs_nonneg _) h3 (by norm_num) (by norm_num) (by norm_num)
  · exact taper_bounds (abs_nonneg _) h4 (by norm_num) (by norm_num) (by norm_num)
  · exact taper_bounds (abs_nonneg _) h5 (by norm_num) (by norm_num) (by norm_num)
  · exact taper_bounds (abs_nonneg _) h6 (by norm_num) (by norm_num) (by norm_num)
  · exact taper_bounds (abs_nonneg _) h7 (by norm_num) (by norm_num) (by norm_num)
  · exact taper_bounds (abs_nonneg _) h8 (by norm_num) (by norm_num) (by norm_num)
  · norm_num

/-- Position-level bounds of `calculateAspectStrength`. -/
theorem calculateAspectStrength_bounds (p q : ℚ) :
    0 ≤ calculateAspectStrength p q ∧ calculateAspectStrength p q ≤ 1 :=
  strengthScan_bounds _

/-- Position-level bounds of the `findAspect` strength. -/
theorem findAspect_strength_bounds (p q : ℚ) :
    0 ≤ (findAspect p q).strength ∧ (findAspect p q).strength ≤ 1 :=
  findAspectScan_bounds _

/-- A list of values in `[0, c]` sums into `[0, c * length]`. -/
theorem sum_bounds (l : List ℚ) (c : ℚ) (h : ∀ x ∈ l, 0 ≤ x ∧ x ≤ c) :
    0 ≤ l.sum ∧ l.sum ≤ c * l.length := by
  induction l with
  | nil => simp
  | cons a t ih =>
    have ha := h a (List.mem_cons_self a t)
    have ht := ih (fun x hx => h x (List.mem_cons_of_mem a hx))
    simp only [List.sum_cons, List.length_cons]
    push_cast
    constructor
    · linarith [ha.1, ht.1]
    · have h2 := ht.2
      have h3 : c * ((t.length : ℚ) + 1) = c * (t.length : ℚ) + c := by ring
      linarith [ha.2]

/-- The Venus–Mars sub-score always lies in `[0, 1]`. -/
theorem calculateVenusMarsSynastry_bounds (u1 u2 : Chart) :
    0 ≤ calculateVenusMarsSynastry u1 u2 ∧ calculateVenusMarsSynastry u1 u2 ≤ 1 := by
  unfold calculateVenusMarsSynastry
  have h1 := calculateAspectStrength_bounds u1.venusPosition u2.marsPosition
  have h2 := calculateAspectStrength_bounds u2.venusPosition u1.marsPosition
  constructor <;> linarith [h1.1, h1.2, h2.1, h2.2]

/-- The full-chart sub-score always lies in `[0, 1]`. -/
theorem calculateFullChartSynastry_bounds (u1 u2 : Chart) :
    0 ≤ calculateFullChartSynastry u1 u2 ∧ calculateFullChartSynastry u1 u2 ≤ 1 := by
  have hlen1 : (chartPoints u1).length = 16 := by simp [chartPoints]
  have hlen2 : (chartPoints u2).length = 16 := by simp [chartPoints]
  have hmem : ∀ x ∈ (chartPoints u1).map
      (fun p => ((chartPoints u2).map (fun q => calculateAspectStrength p q)).sum),
      0 ≤ x ∧ x ≤ 16 := by
    intro x hx
    obtain ⟨p, hp, rfl⟩ := List.mem_map.mp hx
    have hinmem : ∀ y ∈ (chartPoints u2).map (fun q => calculateAspectStrength p q),
        0 ≤ y ∧ y ≤ 1 := by
      intro y hy
      obtain ⟨q, hq, rfl⟩ := List.mem_map.mp hy
      exact calculateAspectStrength_bounds p q
    have hin := sum_bounds _ 1 hinmem
    refine ⟨hin.1, le_trans hin.2 ?_⟩
    rw [List.length_map, hlen2]
    norm_num
  have houter := sum_bounds _ 16 hmem
  rw [List.length_map, hlen1] at houter
  unfold calculateFullChartSynastry
  rw [hlen1, hlen2, if_pos (by norm_num)]
  constructor
  · exact div_nonneg houter.1 (by norm_num)
  · rw [div_le_one (by norm_num)]
    refine le_trans houter.2 (by norm_num)

/-- The synastry-aspect sub-score always lies in `[0, 1]`. -/
theorem calculateSynastryAspects_bounds (u1 u2 : Chart) :
    0 ≤ (calculateSynastryAspects u1 u2).score ∧
      (calculateSynastryAspects u1 u2).score ≤ 1 := by
  have hlen1 : (synPoints u1).length = 12 := by simp [synPoints]
  have hlen2 : (synPoints u2).length = 12 := by simp [synPoints]
  have hmem : ∀ x ∈ (synPoints u1).map
      (fun p => ((synPoints u2).map (fun q => (findAspect p q).strength)).sum),
      0 ≤ x ∧ x ≤ 12 := by
    intro x hx
    obtain ⟨p, hp, rfl⟩ := List.mem_map.mp hx
    have hinmem : ∀ y ∈ (synPoints u2).map (fun q => (findAspect p q).strength),
        0 ≤ y ∧ y ≤ 1 := by
      intro y hy
      obtain ⟨q, hq, rfl⟩ := List.mem_map.mp hy
      exact findAspect_strength_bounds p q
    have hin := sum_bounds _ 1 hinmem
    refine ⟨hin.1, le_trans hin.2 ?_⟩
    rw [List.length_map, hlen2]
    norm_num
  have houter := sum_bounds _ 12 hmem
  rw [List.length_map, hlen1] at houter
  show 0 ≤ (calculateSynastryAspects u1 u2).score ∧ (calculateSynastryAspects u1 u2).score ≤ 1
  unfold calculateSynastryAspects
  simp only
  rw [hlen1, hlen2, if_pos (by norm_num)]
  constructor
  · exact div_nonneg houter.1 (by norm_num)
  · rw [div_le_one (by norm_num)]
    refine le_trans houter.2 (by norm_num)

/-- The house-overlay computation succeeds on a valid coordinate and
its score always lies in `[0, 1]`. -/
theorem houseOverlay_bounds (user1 user2 : Chart)
    (hlat : |user2.lat| ≤ 90) (hlon : |user2.lon| ≤ 180) :
    ∃ t : HouseTranspositions,
      calculateHouseTranspositions user1 user2 = some t ∧ 0 ≤ t.score ∧ t.score ≤ 1 := by
  have hht : calculateHouseTranspositions user1 user2 = some
      ⟨(overlayPoints user1).map (fun p => getPlanetHouse p (housesList user2.jd user2.lon)),
        if (overlayPoints user1).length > 0
        then ((((overlayPoints user1).map
            (fun p => getPlanetHouse p (housesList user2.jd user2.lon))).countP
              (fun h => [1, 5, 7, 9, 11].contains h) : ℕ) : ℚ)
          / ((overlayPoints user1).length : ℚ)
        else 0,
        ((overlayPoints user1).map
            (fun p => getPlanetHouse p (housesList user2.jd user2.lon))).countP
          (fun h => [1, 5, 7, 9, 11].contains h),
        (overlayPoints user1).length⟩ := by
    unfold calculateHouseTranspositions
    rw [swe_houses_valid _ _ _ hlat hlon]
  have hlen6 : (overlayPoints user1).length = 6 := rfl
  have hc : ((overlayPoints user1).map
      (fun p => getPlanetHouse p (housesList user2.jd user2.lon))).countP
        (fun h => [1, 5, 7, 9, 11].contains h) ≤ 6 := by
    refine le_trans (List.countP_le_length _) ?_
    simp [List.length_map, hlen6]
  have hsc : 0 ≤ (if (overlayPoints user1).length > 0
      then ((((overlayPoints user1).map
          (fun p => getPlanetHouse p (housesList user2.jd user2.lon))).countP
            (fun h => [1, 5, 7, 9, 11].contains h) : ℕ) : ℚ)
        / ((overlayPoints user1).length : ℚ)
      else 0) ∧ (if (overlayPoints user1).length > 0
      then ((((overlayPoints user1).map
          (fun p => getPlanetHouse p (housesList user2.jd user2.lon))).countP
            (fun h => [1, 5, 7, 9, 11].contains h) : ℕ) : ℚ)
        / ((overlayPoints user1).length : ℚ)
      else 0) ≤ 1 := by
    rw [if_pos (by rw [hlen6]; norm_num), hlen6]
    constructor
    · positivity
    · rw [div_le_one (by norm_num)]
      exact_mod_cast hc
  exact ⟨_, hht, hsc.1, hsc.2⟩

/-- C9 — Every strength produced by the 8-entry classifier and by the
5-entry synastry strength function lies in `[0, 1]` (for all inputs,
hence in particular for longitudes in `[0, 360)`); consequently all
four sub-scores and the combined compatibility score lie in `[0, 1]`,
with no hypothesis on the sub-scores themselves. -/
theorem calculateCompatibility_bounds (user1 user2 : Chart)
    (_hrange : ∀ x ∈ chartPoints user1 ++ chartPoints user2, 0 ≤ x ∧ x < 360)
    (hlat : |user2.lat| ≤ 90) (hlon : |user2.lon| ≤ 180) :
    (∀ p q : ℚ, 0 ≤ (findAspect p q).strength ∧ (findAspect p q).strength ≤ 1) ∧
    (∀ p q : ℚ, 0 ≤ calculateAspectStrength p q ∧ calculateAspectStrength p q ≤ 1) ∧
    ∃ r : CompatibilityResult,
      calculateCompatibility user1 user2 = some r ∧
      0 ≤ r.venusMarsSynastry ∧ r.venusMarsSynastry ≤ 1 ∧
      0 ≤ r.fullChartSynastry ∧ r.fullChartSynastry ≤ 1 ∧
      0 ≤ r.synastryAspects.score ∧ r.synastryAspects.score ≤ 1 ∧
      0 ≤ r.houseTranspositions.score ∧ r.houseTranspositions.score ≤ 1 ∧
      0 ≤ r.compatibilityScore ∧ r.compatibilityScore ≤ 1 := by
  refine ⟨findAspect_strength_bounds, calculateAspectStrength_bounds, ?_⟩
  obtain ⟨t, hht, ht0, ht1⟩ := houseOverlay_bounds user1 user2 hlat hlon
  have hcomp : calculateCompatibility user1 user2 = some
      ⟨calculateVenusMarsSynastry user1 user2 * 0.4
          + calculateFullChartSynastry user1 user2 * 0.3
          + (calculateSynastryAspects user1 user2).score * 0.2 + t.score * 0.1,
        calculateVenusMarsSynastry user1 user2, calculateFullChartSynastry user1 user2,
        calculateSynastryAspects user1 user2, t⟩ := by
    unfold calculateCompatibility
    rw [hht]
  have hvm := calculateVenusMarsSynastry_bounds user1 user2
  have hfc := calculateFullChartSynastry_bounds user1 user2
  have hsy := calculateSynastryAspects_bounds user1 user2
  refine ⟨_, hcomp, hvm.1, hvm.2, hfc.1, hfc.2, hsy.1, hsy.2, ht0, ht1, ?_, ?_⟩
  · show 0 ≤ calculateVenusMarsSynastry user1 user2 * 0.4
        + calculateFullChartSynastry user1 user2 * 0.3
        + (calculateSynastryAspects user1 user2).score * 0.2 + t.score * 0.1
    linarith [hvm.1, hfc.1, hsy.1, ht0]
  · show calculateVenusMarsSynastry user1 user2 * 0.4
        + calculateFullChartSynastry user1 user2 * 0.3
        + (calculateSynastryAspects user1 user2).score * 0.2 + t.score * 0.1 ≤ 1
    linarith [hvm.2, hfc.2, hsy.2, ht1]

/-- Witness for C9: the bounds at two copies of the concrete zero
chart. -/
theorem calculateCompatibility_bounds_witness :
    (∀ p q : ℚ, 0 ≤ (findAspect p q).strength ∧ (findAspect p q).strength ≤ 1) ∧
    (∀ p q : ℚ, 0 ≤ calculateAspectStrength p q ∧ calculateAspectStrength p q ≤ 1) ∧
    ∃ r : CompatibilityResult,
      calculateCompatibility zeroChart zeroChart = some r ∧
      0 ≤ r.venusMarsSynastry ∧ r.venusMarsSynastry ≤ 1 ∧
      0 ≤ r.fullChartSynastry ∧ r.fullChartSynastry ≤ 1 ∧
      0 ≤ r.synastryAspects.score ∧ r.synastryAspects.score ≤ 1 ∧
      0 ≤ r.houseTranspositions.score ∧ r.houseTranspositions.score ≤ 1 ∧
      0 ≤ r.compatibilityScore ∧ r.compatibilityScore ≤ 1 :=
  calculateCompatibility_bounds zeroChart zeroChart
    (by intro x hx; simp [chartPoints, zeroChart] at hx; subst hx; norm_num)
    (by norm_num [zeroChart]) (by norm_num [zeroChart])
